import Mathlib

/-
  Verification development for the Suzuri text layout and glyph rendering
  engine.  The definitions below are a shallow embedding of the authoritative
  layout implementation in src/text/layout.rs (the fragment-context design)
  and of the renderer dispatch in src/font_system.rs.

  Modelling conventions:
  * Rust f32 values are embedded as exact rationals.
  * The f32 value INFINITY that the call sites produce via
    max_width.unwrap_or(INFINITY) is embedded as the none case of an
    Option, so a width limit is an Option of a rational and a comparison
    x > INFINITY is false for every finite x.
  * Rust Option is Lean Option; a Vec is a List (push = append at the end).
  * The unimplemented macro reached for vertical-only fonts aborts the
    whole layout call, so layout is embedded as an Option-returning
    function where none stands for the abort.
-/

namespace Suzuri

/-- Opaque font handle (fontdb ID in the source). -/
abbrev FontId := Nat

/-- Per-glyph raster metrics (fontdue Metrics): width and height of the
bitmap in pixels, xmin and ymin of the bitmap relative to the origin, and
the horizontal advance. -/
structure Metrics where
  width : Nat
  height : Nat
  xmin : Int
  ymin : Int
  advance_width : ℚ
deriving DecidableEq

/-- Per-size horizontal line metrics (fontdue LineMetrics). -/
structure LineMetrics where
  ascent : ℚ
  descent : ℚ
  line_gap : ℚ
deriving DecidableEq

/-- Modelled from the spec: src/glyph_id.rs is declared in lib.rs but its
source is not available.  The spec (section 3) fixes a GlyphId as a triple of
the font handle, the glyph index within the font, and the font size
quantised to integer 1/64-pixel units; equality uses all three components. -/
structure GlyphId where
  font_id : FontId
  glyph_index : Nat
  size_q : Int
deriving DecidableEq

/-- Modelled from the spec: quantisation of the size to 1/64-pixel units on
construction of a GlyphId. -/
def GlyphId.new (fid : FontId) (idx : Nat) (size : ℚ) : GlyphId :=
  { font_id := fid, glyph_index := idx, size_q := ⌊size * 64⌋ }

/-- Modelled from the spec: the size stored in a GlyphId read back in pixels
(integer 1/64-pixel units). -/
def GlyphId.font_size (g : GlyphId) : ℚ := (g.size_q : ℚ) / 64

/-- External collaborator (spec section 6): a loaded font exposes glyph
index lookup, per-glyph metrics, kerning pairs and per-size horizontal line
metrics.  A font whose horizontal_line_metrics is none at a size is a
vertical-only font at that size. -/
structure Font where
  lookup_glyph_index : Char → Nat
  metrics_indexed : Nat → ℚ → Metrics
  horizontal_kern_indexed : Nat → Nat → ℚ → Option ℚ
  horizontal_line_metrics : ℚ → Option LineMetrics

/-- fontdue resolves metrics of a character through the glyph index. -/
def Font.metrics (f : Font) (ch : Char) (size : ℚ) : Metrics :=
  f.metrics_indexed (f.lookup_glyph_index ch) size

/-- Modelled from the spec: src/font_storage.rs is declared in lib.rs but
its source is not available.  The spec (sections 5 and 6) describes font
storage as an opaque provider whose reads appear pure: a map from font
handles to loaded fonts. -/
structure FontStorage where
  font : FontId → Option Font

/-- One text run (src/text/layout.rs uses the generic TextElement of
src/text.rs with a user payload). -/
structure TextElement (T : Type) where
  font_id : FontId
  font_size : ℚ
  content : List Char
  user_data : T

/-- Ordered sequence of runs. -/
structure TextData (T : Type) where
  texts : List (TextElement T)

/-- Horizontal justification applied after each line is assembled. -/
inductive HorizontalAlign where
  | Left
  | Center
  | Right
deriving DecidableEq

/-- Vertical alignment strategy for the entire block of text. -/
inductive VerticalAlign where
  | Top
  | Middle
  | Bottom
deriving DecidableEq

/-- Wrapping rules that define where line breaks may occur. -/
inductive WrapStyle where
  | WordWrap
  | CharWrap
  | NoWrap
deriving DecidableEq

/-- Configuration knobs used by the text layout pipeline. -/
structure TextLayoutConfig where
  max_width : Option ℚ
  max_height : Option ℚ
  horizontal_align : HorizontalAlign
  vertical_align : VerticalAlign
  line_height_scale : ℚ
  wrap_style : WrapStyle
  tab_size_in_spaces : Nat
deriving DecidableEq

/-- Default configuration (Left, Top, WordWrap, scale 1, tab 4, no limits). -/
def TextLayoutConfig.default : TextLayoutConfig :=
  { max_width := none
    max_height := none
    horizontal_align := .Left
    vertical_align := .Top
    line_height_scale := 1
    wrap_style := .WordWrap
    tab_size_in_spaces := 4 }

/-- A glyph with its absolute position in the final layout (y grows down). -/
structure GlyphPosition (T : Type) where
  glyph_id : GlyphId
  glyph_metrics : Metrics
  x : ℚ
  y : ℚ
  user_data : T
deriving DecidableEq

/-- A single row of positioned glyphs in the final layout. -/
structure TextLayoutLine (T : Type) where
  line_height : ℚ
  line_width : ℚ
  top : ℚ
  bottom : ℚ
  glyphs : List (GlyphPosition T)
deriving DecidableEq

/-- Final layout output produced by layout. -/
structure TextLayout (T : Type) where
  config : TextLayoutConfig
  total_height : ℚ
  total_width : ℚ
  lines : List (TextLayoutLine T)
deriving DecidableEq

/-- Mutable accumulator for a partial line or word during stage 1. -/
structure LayoutFragment (T : Type) where
  buffer : List (GlyphPosition T)
  instance_length : ℚ
  max_ascent : ℚ
  max_descent : ℚ
  max_line_gap : ℚ
  next_origin_x : ℚ
deriving DecidableEq

/-- A width limit comparison: the call sites pass
max_width.unwrap_or(INFINITY), embedded as an Option where none is the
infinite limit, so x > INFINITY is always false. -/
def exceedsLimit (x : ℚ) : Option ℚ → Bool
  | none => false
  | some m => decide (x > m)

variable {T : Type}

namespace LayoutFragment

/-- LayoutFragment::new — fragment holding a single glyph at the origin. -/
def new (glyph_idx : Nat) (font : Font) (font_id : FontId) (size : ℚ)
    (line_metrics : LineMetrics) (user_data : T) : LayoutFragment T :=
  let id := GlyphId.new font_id glyph_idx size
  let metrics := font.metrics_indexed glyph_idx size
  { buffer := [{ glyph_id := id
                 glyph_metrics := metrics
                 x := (metrics.xmin : ℚ)
                 y := -((metrics.ymin : ℚ) + (metrics.height : ℚ))
                 user_data := user_data }]
    instance_length := ((metrics.xmin + (metrics.width : Int) : Int) : ℚ)
    max_ascent := line_metrics.ascent
    max_descent := line_metrics.descent
    max_line_gap := line_metrics.line_gap
    next_origin_x := metrics.advance_width }

/-- LayoutFragment::new_blank — empty fragment with zero metrics. -/
def new_blank : LayoutFragment T :=
  { buffer := []
    instance_length := 0
    max_ascent := 0
    max_descent := 0
    max_line_gap := 0
    next_origin_x := 0 }

/-- The kerning adjustment computed at the top of LayoutFragment::push_char
and LayoutFragment::try_push_char_in_length: kerning is looked up when the
previous glyph exists and has the same font id (the size stored in the
previous glyph id is not compared); the lookup uses the incoming size. -/
def pushKern (frag : LayoutFragment T) (glyph_idx : Nat) (font : Font)
    (font_id : FontId) (size : ℚ) : ℚ :=
  ((frag.buffer.getLast?.bind fun left =>
      -- Ignore kerning if font id is different
      if left.glyph_id.font_id = font_id then some left.glyph_id.glyph_index
      else none).bind fun left_idx =>
    font.horizontal_kern_indexed left_idx glyph_idx size).getD 0

/-- LayoutFragment::push_char — unconditional append of one glyph. -/
def push_char (frag : LayoutFragment T) (glyph_idx : Nat) (font : Font)
    (font_id : FontId) (size : ℚ) (line_metrics : LineMetrics)
    (user_data : T) : LayoutFragment T :=
  let id := GlyphId.new font_id glyph_idx size
  let metrics := font.metrics_indexed glyph_idx size
  let x_kern := pushKern frag glyph_idx font font_id size
  -- fix x position
  let next_origin_x := frag.next_origin_x + x_kern
  { buffer := frag.buffer ++
      [{ glyph_id := id
         glyph_metrics := metrics
         x := next_origin_x + (metrics.xmin : ℚ)
         y := -((metrics.ymin : ℚ) + (metrics.height : ℚ))
         user_data := user_data }]
    instance_length :=
      max frag.instance_length
        (next_origin_x + (metrics.xmin : ℚ) + (metrics.width : ℚ))
    max_ascent := max frag.max_ascent line_metrics.ascent
    max_descent := max frag.max_descent line_metrics.descent
    max_line_gap := max frag.max_line_gap line_metrics.line_gap
    next_origin_x := next_origin_x + metrics.advance_width }

/-- LayoutFragment::try_push_char_in_length — append one glyph only if its
resulting extent stays within the limit; first component tells whether the
glyph was pushed, second is the (possibly unchanged) fragment. -/
def try_push_char_in_length (frag : LayoutFragment T) (glyph_idx : Nat)
    (font : Font) (font_id : FontId) (size : ℚ) (line_metrics : LineMetrics)
    (user_data : T) (max_length : Option ℚ) : Bool × LayoutFragment T :=
  let id := GlyphId.new font_id glyph_idx size
  let metrics := font.metrics_indexed glyph_idx size
  let x_kern := pushKern frag glyph_idx font font_id size
  -- fix x position
  let fixed_next_origin_x := frag.next_origin_x + x_kern
  if exceedsLimit (fixed_next_origin_x + (metrics.xmin : ℚ) + (metrics.width : ℚ))
      max_length then
    (false, frag)
  else
    (true,
      { buffer := frag.buffer ++
          [{ glyph_id := id
             glyph_metrics := metrics
             x := fixed_next_origin_x + (metrics.xmin : ℚ)
             y := -((metrics.ymin : ℚ) + (metrics.height : ℚ))
             user_data := user_data }]
        instance_length :=
          max frag.instance_length
            (fixed_next_origin_x + (metrics.xmin : ℚ) + (metrics.width : ℚ))
        max_ascent := max frag.max_ascent line_metrics.ascent
        max_descent := max frag.max_descent line_metrics.descent
        max_line_gap := max frag.max_line_gap line_metrics.line_gap
        next_origin_x := fixed_next_origin_x + metrics.advance_width })

/-- The kerning adjustment computed at the top of
LayoutFragment::try_concat_in_length: kerning between the last glyph of the
line and the first glyph of the word, applied only when both font id and
stored (quantised) font size agree. -/
def concatKern (self other : LayoutFragment T) (font_storage : FontStorage) : ℚ :=
  match self.buffer.getLast?, other.buffer.head? with
  | some last_glyph_of_self, some first_glyph_of_other =>
    if last_glyph_of_self.glyph_id.font_id = first_glyph_of_other.glyph_id.font_id
        ∧ last_glyph_of_self.glyph_id.font_size
          = first_glyph_of_other.glyph_id.font_size then
      ((font_storage.font last_glyph_of_self.glyph_id.font_id).bind fun font =>
        font.horizontal_kern_indexed
          last_glyph_of_self.glyph_id.glyph_index
          first_glyph_of_other.glyph_id.glyph_index
          last_glyph_of_self.glyph_id.font_size).getD 0
    else 0
  | _, _ => 0

/-- LayoutFragment::try_concat_in_length — append all glyphs of the word
fragment to the line fragment, shifted by the line cursor plus kerning,
only if the shifted word extent stays within the limit.  Returns the
success flag, the line fragment, and the word fragment (drained on
success, unchanged on failure). -/
def try_concat_in_length (self other : LayoutFragment T)
    (font_storage : FontStorage) (max_length : Option ℚ) :
    Bool × LayoutFragment T × LayoutFragment T :=
  let x_kern := concatKern self other font_storage
  -- fix x position
  let fixed_next_origin_x := self.next_origin_x + x_kern
  let new_instance_length := fixed_next_origin_x + other.instance_length
  if exceedsLimit new_instance_length max_length then
    (false, self, other)
  else
    (true,
      { buffer := self.buffer ++
          other.buffer.map fun glyph => { glyph with x := glyph.x + fixed_next_origin_x }
        instance_length := max self.instance_length new_instance_length
        max_ascent := max self.max_ascent other.max_ascent
        max_descent := max self.max_descent other.max_descent
        max_line_gap := max self.max_line_gap other.max_line_gap
        next_origin_x := fixed_next_origin_x + other.next_origin_x },
      { other with buffer := [] })

end LayoutFragment

/-- Stage-1 state: committed lines plus the optional line and word
fragments under construction. -/
structure LayoutContext (T : Type) where
  lines : List (LayoutFragment T)
  line_fragment : Option (LayoutFragment T)
  word_fragment : Option (LayoutFragment T)

namespace LayoutContext

/-- LayoutContext::new. -/
def empty : LayoutContext T :=
  { lines := [], line_fragment := none, word_fragment := none }

/-- LayoutContext::handle_newline — commit the current line (folding the
pending word within the limit) or a blank line; both fragments are taken. -/
def handle_newline (cfg : TextLayoutConfig) (font_storage : FontStorage)
    (ctx : LayoutContext T) : LayoutContext T :=
  match ctx.line_fragment, ctx.word_fragment with
  | some lf, some wf =>
    let r := lf.try_concat_in_length wf font_storage cfg.max_width
    if r.1 then
      { lines := ctx.lines ++ [r.2.1], line_fragment := none, word_fragment := none }
    else
      { lines := ctx.lines ++ [r.2.1, r.2.2], line_fragment := none, word_fragment := none }
  | some fragment, none =>
    { lines := ctx.lines ++ [fragment], line_fragment := none, word_fragment := none }
  | none, some fragment =>
    { lines := ctx.lines ++ [fragment], line_fragment := none, word_fragment := none }
  | none, none =>
    { lines := ctx.lines ++ [LayoutFragment.new_blank],
      line_fragment := none, word_fragment := none }

/-- LayoutContext::handle_space — a space is a word separator under
WordWrap (fold the pending word into the line first) and an ordinary glyph
otherwise; both fragments are taken by the match, so the word slot is left
empty in every arm. -/
def handle_space (cfg : TextLayoutConfig) (glyph_idx : Nat) (font : Font)
    (font_id : FontId) (font_size : ℚ) (line_metrics : LineMetrics)
    (user_data : T) (font_storage : FontStorage)
    (ctx : LayoutContext T) : LayoutContext T :=
  match cfg.wrap_style, ctx.line_fragment, ctx.word_fragment with
  | .WordWrap, some lf, some wf =>
    let r := lf.try_concat_in_length wf font_storage cfg.max_width
    if r.1 then
      { lines := ctx.lines
        line_fragment :=
          some (r.2.1.push_char glyph_idx font font_id font_size line_metrics user_data)
        word_fragment := none }
    else
      { lines := ctx.lines ++ [r.2.1]
        line_fragment :=
          some (r.2.2.push_char glyph_idx font font_id font_size line_metrics user_data)
        word_fragment := none }
  | .WordWrap, some lf, none =>
    { lines := ctx.lines
      line_fragment :=
        some (lf.push_char glyph_idx font font_id font_size line_metrics user_data)
      word_fragment := none }
  | .WordWrap, none, some wf =>
    { lines := ctx.lines
      line_fragment :=
        some (wf.push_char glyph_idx font font_id font_size line_metrics user_data)
      word_fragment := none }
  | .WordWrap, none, none =>
    { lines := ctx.lines
      line_fragment :=
        some (LayoutFragment.new glyph_idx font font_id font_size line_metrics user_data)
      word_fragment := none }
  | .CharWrap, some lf, _ | .NoWrap, some lf, _ =>
    { lines := ctx.lines
      line_fragment :=
        some (lf.push_char glyph_idx font font_id font_size line_metrics user_data)
      word_fragment := none }
  | .CharWrap, none, _ | .NoWrap, none, _ =>
    { lines := ctx.lines
      line_fragment :=
        some (LayoutFragment.new glyph_idx font font_id font_size line_metrics user_data)
      word_fragment := none }

/-- LayoutContext::handle_tab — fold the pending word into the line, then
add the tab advance to the line cursor and extent with no width check. -/
def handle_tab (cfg : TextLayoutConfig) (font : Font) (font_size : ℚ)
    (line_metrics : LineMetrics) (font_storage : FontStorage)
    (ctx : LayoutContext T) : LayoutContext T :=
  let space_size := (font.metrics ' ' font_size).advance_width
  let tab_size := space_size * (cfg.tab_size_in_spaces : ℚ)
  let ctx1 : LayoutContext T :=
    match ctx.word_fragment with
    | some wf =>
      match ctx.line_fragment with
      | some lf =>
        let r := lf.try_concat_in_length wf font_storage cfg.max_width
        if r.1 then
          { lines := ctx.lines, line_fragment := some r.2.1, word_fragment := none }
        else
          { lines := ctx.lines ++ [r.2.1], line_fragment := some r.2.2,
            word_fragment := none }
      | none =>
        { lines := ctx.lines, line_fragment := some wf, word_fragment := none }
    | none => ctx
  match ctx1.line_fragment with
  | some lf =>
    { ctx1 with
      line_fragment := some
        { lf with
          instance_length := lf.instance_length + tab_size
          next_origin_x := lf.next_origin_x + tab_size
          max_ascent := max lf.max_ascent line_metrics.ascent
          max_descent := max lf.max_descent line_metrics.descent
          max_line_gap := max lf.max_line_gap line_metrics.line_gap } }
  | none =>
    { ctx1 with
      line_fragment := some
        { LayoutFragment.new_blank with
          instance_length := tab_size
          next_origin_x := tab_size
          max_ascent := line_metrics.ascent
          max_descent := line_metrics.descent
          max_line_gap := line_metrics.line_gap } }

/-- LayoutContext::handle_char — route an ordinary character by wrap
style; both fragments are taken by the match, so slots not re-filled in an
arm are left empty. -/
def handle_char (cfg : TextLayoutConfig) (glyph_idx : Nat) (font : Font)
    (font_id : FontId) (font_size : ℚ) (line_metrics : LineMetrics)
    (user_data : T) (ctx : LayoutContext T) : LayoutContext T :=
  match cfg.wrap_style, ctx.line_fragment, ctx.word_fragment with
  | .WordWrap, some lf, some wf =>
    let r := wf.try_push_char_in_length glyph_idx font font_id font_size
      line_metrics user_data cfg.max_width
    if r.1 then
      { lines := ctx.lines, line_fragment := some lf, word_fragment := some r.2 }
    else
      { lines := ctx.lines ++ [lf, r.2]
        line_fragment := none
        word_fragment :=
          some (LayoutFragment.new glyph_idx font font_id font_size line_metrics user_data) }
  | .WordWrap, some lf, none =>
    { lines := ctx.lines
      line_fragment := some lf
      word_fragment :=
        some (LayoutFragment.new glyph_idx font font_id font_size line_metrics user_data) }
  | .WordWrap, none, some wf =>
    { lines := ctx.lines
      line_fragment :=
        some (wf.push_char glyph_idx font font_id font_size line_metrics user_data)
      word_fragment := none }
  | .WordWrap, none, none =>
    { lines := ctx.lines
      line_fragment :=
        some (LayoutFragment.new glyph_idx font font_id font_size line_metrics user_data)
      word_fragment := none }
  | .CharWrap, some lf, _ =>
    let r := lf.try_push_char_in_length glyph_idx font font_id font_size
      line_metrics user_data cfg.max_width
    if r.1 then
      { lines := ctx.lines, line_fragment := some r.2, word_fragment := none }
    else
      { lines := ctx.lines ++ [lf]
        line_fragment :=
          some (LayoutFragment.new glyph_idx font font_id font_size line_metrics user_data)
        word_fragment := none }
  | .CharWrap, none, _ =>
    { lines := ctx.lines
      line_fragment :=
        some (LayoutFragment.new glyph_idx font font_id font_size line_metrics user_data)
      word_fragment := none }
  | .NoWrap, some lf, _ =>
    { lines := ctx.lines
      line_fragment :=
        some (lf.push_char glyph_idx font font_id font_size line_metrics user_data)
      word_fragment := none }
  | .NoWrap, none, _ =>
    { lines := ctx.lines
      line_fragment :=
        some (LayoutFragment.new glyph_idx font font_id font_size line_metrics user_data)
      word_fragment := none }

/-- LayoutContext::flush — the source matches on the tuple
(wrap_style, word_fragment, line_fragment), in that order, so under
WordWrap with both fragments present the line fragment is concatenated
onto the word fragment, and under CharWrap and NoWrap only a remaining
word fragment (never present under those styles) is committed while a
remaining line fragment is dropped. -/
def flush (cfg : TextLayoutConfig) (font_storage : FontStorage)
    (ctx : LayoutContext T) : LayoutContext T :=
  match cfg.wrap_style, ctx.word_fragment, ctx.line_fragment with
  | .WordWrap, none, some fragment | .WordWrap, some fragment, none =>
    { lines := ctx.lines ++ [fragment], line_fragment := none, word_fragment := none }
  | .WordWrap, some lf, some wf =>
    -- the binder names lf and wf mirror the source, which binds the word
    -- fragment to lf and the line fragment to wf at this match
    let r := lf.try_concat_in_length wf font_storage cfg.max_width
    if r.1 then
      { lines := ctx.lines ++ [r.2.1], line_fragment := none, word_fragment := none }
    else
      { lines := ctx.lines ++ [r.2.1, r.2.2], line_fragment := none, word_fragment := none }
  | .CharWrap, some fragment, _ =>
    { lines := ctx.lines ++ [fragment], line_fragment := none, word_fragment := none }
  | .NoWrap, some fragment, _ =>
    { lines := ctx.lines ++ [fragment], line_fragment := none, word_fragment := none }
  | .CharWrap, none, _ =>
    { lines := ctx.lines, line_fragment := none, word_fragment := none }
  | .NoWrap, none, _ =>
    { lines := ctx.lines, line_fragment := none, word_fragment := none }
  | .WordWrap, none, none =>
    { lines := ctx.lines, line_fragment := none, word_fragment := none }

end LayoutContext

/-- The hard-break characters recognised by the per-character dispatch. -/
def isHardBreak (ch : Char) : Bool :=
  ch = '\n' || ch = '\u2028' || ch = '\u2029'

/-- Per-character dispatch of TextData::layout stage 1. -/
def processChar (cfg : TextLayoutConfig) (font : Font) (font_id : FontId)
    (font_size : ℚ) (line_metrics : LineMetrics) (user_data : T)
    (font_storage : FontStorage) (ctx : LayoutContext T) (ch : Char) :
    LayoutContext T :=
  let glyph_idx := font.lookup_glyph_index ch
  if isHardBreak ch then
    ctx.handle_newline cfg font_storage
  else if ch = ' ' then
    ctx.handle_space cfg glyph_idx font font_id font_size line_metrics
      user_data font_storage
  else if ch = '\t' then
    ctx.handle_tab cfg font font_size line_metrics font_storage
  else
    ctx.handle_char cfg glyph_idx font font_id font_size line_metrics user_data

/-- Per-run processing of TextData::layout stage 1: a run whose font is
unknown is skipped; a run whose font lacks horizontal line metrics reaches
the unimplemented macro, embedded as none. -/
def processRun (cfg : TextLayoutConfig) (font_storage : FontStorage)
    (ctx : LayoutContext T) (text : TextElement T) :
    Option (LayoutContext T) :=
  match font_storage.font text.font_id with
  | none => some ctx
  | some font =>
    match font.horizontal_line_metrics text.font_size with
    | none => none
    | some line_metrics =>
      some (text.content.foldl
        (fun c ch =>
          processChar cfg font text.font_id text.font_size line_metrics
            text.user_data font_storage c ch)
        ctx)

/-- Stage 1 of TextData::layout: the committed line fragments, or none when
a run reaches the unimplemented macro. -/
def layoutFragments (d : TextData T) (cfg : TextLayoutConfig)
    (font_storage : FontStorage) : Option (List (LayoutFragment T)) :=
  (d.texts.foldlM (fun ctx text => processRun cfg font_storage ctx text)
      LayoutContext.empty).map
    fun ctx => (ctx.flush cfg font_storage).lines

/-- The per-line data carried between the totals pass and the final
assembly pass of TextData::layout. -/
structure ProcessedLine (T : Type) where
  fragment : LayoutFragment T
  line_height : ℚ
  ascent : ℚ
  descent : ℚ

/-- First half of stage 2: per-line scaled heights and metrics. -/
def processLines (cfg : TextLayoutConfig) (lines : List (LayoutFragment T)) :
    List (ProcessedLine T) :=
  lines.map fun fragment =>
    let ascent := fragment.max_ascent
    let descent := fragment.max_descent
    let line_gap := fragment.max_line_gap
    -- Note: descent is typically negative.
    let content_height := ascent - descent
    let original_line_height := content_height + line_gap
    { fragment := fragment
      line_height := original_line_height * cfg.line_height_scale
      ascent := ascent
      descent := descent }

/-- Running maximum of the line extents (total_width of the layout). -/
def maxLineWidth (ps : List (ProcessedLine T)) : ℚ :=
  ps.foldl (fun acc p => max acc p.fragment.instance_length) 0

/-- Running sum of the scaled line heights (total_height of the layout). -/
def totalHeight (ps : List (ProcessedLine T)) : ℚ :=
  ps.foldl (fun acc p => acc + p.line_height) 0

/-- Second half of stage 2: alignment offsets and absolute coordinates,
walking the processed lines with a running y cursor. -/
def emitLines (cfg : TextLayoutConfig) (container_width : ℚ) :
    List (ProcessedLine T) → List (TextLayoutLine T) → ℚ →
    List (TextLayoutLine T)
  | [], acc, _ => acc
  | line :: rest, acc, current_y =>
    let x_offset :=
      match cfg.horizontal_align with
      | .Left => 0
      -- If container_width < width (overflow), this might be negative.
      | .Center => (container_width - line.fragment.instance_length) / 2
      | .Right => container_width - line.fragment.instance_length
    -- Baseline Y for this line: center text vertically within the scaled
    -- line height.
    let baseline_y :=
      current_y + line.line_height / 2 - (line.ascent + line.descent) / 2
    let final_glyphs := line.fragment.buffer.map fun glyph =>
      { glyph with x := glyph.x + x_offset, y := glyph.y + baseline_y }
    emitLines cfg container_width rest
      (acc ++ [{ line_height := line.line_height
                 line_width := line.fragment.instance_length
                 top := current_y
                 bottom := current_y + line.line_height
                 glyphs := final_glyphs }])
      (current_y + line.line_height)

/-- Stage 2 of TextData::layout: totals, alignment, and final assembly. -/
def assemble (cfg : TextLayoutConfig) (lines : List (LayoutFragment T)) :
    TextLayout T :=
  let processed_lines := processLines cfg lines
  let max_line_width := maxLineWidth processed_lines
  let total_height := totalHeight processed_lines
  let container_width := cfg.max_width.getD max_line_width
  -- Vertical align setup
  let layout_height := cfg.max_height.getD total_height
  let current_y :=
    match cfg.vertical_align with
    | .Top => 0
    | .Middle => (layout_height - total_height) / 2
    | .Bottom => layout_height - total_height
  { config := cfg
    total_height := total_height
    total_width := max_line_width
    lines := emitLines cfg container_width processed_lines [] current_y }

/-- TextData::layout — none stands for the abort through the
unimplemented macro on a vertical-only font. -/
def TextData.layout (d : TextData T) (cfg : TextLayoutConfig)
    (font_storage : FontStorage) : Option (TextLayout T) :=
  (layoutFragments d cfg font_storage).map fun lines => assemble cfg lines

/-- TextData::measure — the layout projected to its totals. -/
def TextData.measure (d : TextData T) (cfg : TextLayoutConfig)
    (font_storage : FontStorage) : Option (ℚ × ℚ) :=
  (d.layout cfg font_storage).map fun l => (l.total_width, l.total_height)

/-- Number of hard-break characters over all runs of a text. -/
def countHardBreaks (d : TextData T) : Nat :=
  (d.texts.map fun t => t.content.countP fun c => isHardBreak c).sum

/-- The per-line transformation Right alignment applies on top of Left
alignment in stage 2 of TextData::layout: every glyph x is shifted by the
container width minus the line width. -/
def shiftRight (container_width : ℚ) (l : TextLayoutLine T) : TextLayoutLine T :=
  { l with glyphs := l.glyphs.map fun g =>
      { g with x := g.x + (container_width - l.line_width) } }

/-
  src/font_system.rs — the renderer dispatch of the FontSystem facade.
  The renderer internals (src/renderer/cpu_renderer.rs and the body of the
  GPU renderer) are outside the claims verified here, so the state of an
  initialised renderer and its render/clear behaviour are abstract type
  and function parameters; the dispatch logic below mirrors the source:
  each entry point locks the corresponding slot, runs the renderer when it
  is initialised, and otherwise logs a warning and does nothing.  The
  returned triple carries the updated system state, the list of callback
  events the inner renderer emitted, and the warnings logged.
-/

/-- The FontSystem facade state: optional renderer slots (the wgpu slot,
feature-gated in the source, is dispatched identically and is omitted). -/
structure FontSystem (CpuR GpuR : Type) where
  cpu_renderer : Option CpuR
  gpu_renderer : Option GpuR

/-- FontSystem::new — no renderer is initialised. -/
def FontSystem.new {CpuR GpuR : Type} : FontSystem CpuR GpuR :=
  { cpu_renderer := none, gpu_renderer := none }

variable {CpuR GpuR E : Type}

/-- FontSystem::cpu_render — run the CPU renderer when initialised
(render is the abstract CpuRenderer::render already applied to the
layout, image size, font storage and pixel callback; it returns the
updated renderer state and the callback invocations it performed),
otherwise log a warning and do nothing. -/
def FontSystem.cpu_render (sys : FontSystem CpuR GpuR)
    (render : CpuR → CpuR × List E) :
    FontSystem CpuR GpuR × List E × List String :=
  match sys.cpu_renderer with
  | some r =>
    let p := render r
    ({ sys with cpu_renderer := some p.1 }, p.2, [])
  | none => (sys, [], ["Render called before cpu renderer initialized."])

/-- FontSystem::cpu_cache_clear — clear the CPU cache when initialised,
otherwise log a warning and do nothing. -/
def FontSystem.cpu_cache_clear (sys : FontSystem CpuR GpuR)
    (clear_cache : CpuR → CpuR) : FontSystem CpuR GpuR × List String :=
  match sys.cpu_renderer with
  | some r => ({ sys with cpu_renderer := some (clear_cache r) }, [])
  | none => (sys, ["Cache clear called before cpu renderer initialized."])

/-- FontSystem::gpu_render — run the GPU renderer when initialised
(render is the abstract GpuRenderer::render already applied to the
layout, font storage and the three callbacks), otherwise log a warning
and do nothing. -/
def FontSystem.gpu_render (sys : FontSystem CpuR GpuR)
    (render : GpuR → GpuR × List E) :
    FontSystem CpuR GpuR × List E × List String :=
  match sys.gpu_renderer with
  | some r =>
    let p := render r
    ({ sys with gpu_renderer := some p.1 }, p.2, [])
  | none => (sys, [], ["Render called before gpu renderer initialized."])

/-- FontSystem::gpu_cache_clear — clear the GPU cache when initialised,
otherwise log a warning and do nothing. -/
def FontSystem.gpu_cache_clear (sys : FontSystem CpuR GpuR)
    (clear_cache : GpuR → GpuR) : FontSystem CpuR GpuR × List String :=
  match sys.gpu_renderer with
  | some r => ({ sys with gpu_renderer := some (clear_cache r) }, [])
  | none => (sys, ["Cache clear called before gpu renderer initialized."])

/-
  Concrete fixtures used by witnesses and counterexamples.
-/

/-- Line metrics of the test font at every size: ascent 10, descent -2,
line gap 0, so a line of this font is 12 tall at scale 1. -/
def lmA : LineMetrics := ⟨10, -2, 0⟩

/-- Test font: glyph 0 is the space (advance 2, no ink), every other
character maps to glyph 1 (a 6-wide box with advance 6); no kerning. -/
def fontA : Font :=
  { lookup_glyph_index := fun ch => if ch = ' ' then 0 else 1
    metrics_indexed := fun idx _ =>
      if idx = 0 then ⟨0, 0, 0, 0, 2⟩ else ⟨6, 0, 0, 0, 6⟩
    horizontal_kern_indexed := fun _ _ _ => none
    horizontal_line_metrics := fun _ => some lmA }

/-- Storage holding fontA under handle 0. -/
def storageA : FontStorage := ⟨fun fid => if fid = 0 then some fontA else none⟩

/-- A vertical-only variant of fontA: no horizontal line metrics. -/
def fontV : Font := { fontA with horizontal_line_metrics := fun _ => none }

/-- Storage holding the vertical-only font under handle 0. -/
def storageV : FontStorage := ⟨fun fid => if fid = 0 then some fontV else none⟩

/-- Single run holding the single character a. -/
def dA : TextData Unit := ⟨[⟨0, 16, ['a'], ()⟩]⟩

/-- Single run holding a single newline. -/
def dNl : TextData Unit := ⟨[⟨0, 16, ['\n'], ()⟩]⟩

/-- Single run: a, tab, a. -/
def dTab : TextData Unit := ⟨[⟨0, 16, ['a', '\t', 'a'], ()⟩]⟩

/-- Single run: a, newline. -/
def dAnl : TextData Unit := ⟨[⟨0, 16, ['a', '\n'], ()⟩]⟩

/-- Single run: a, a, newline. -/
def dXXnl : TextData Unit := ⟨[⟨0, 16, ['a', 'a', '\n'], ()⟩]⟩

/-- Single run: a, a, newline, a. -/
def dC8 : TextData Unit := ⟨[⟨0, 16, ['a', 'a', '\n', 'a'], ()⟩]⟩

/-- WordWrap with width limit 10. -/
def cfgWW10 : TextLayoutConfig := { TextLayoutConfig.default with max_width := some 10 }

/-- NoWrap, no limits. -/
def cfgNW : TextLayoutConfig := { TextLayoutConfig.default with wrap_style := .NoWrap }

/-- NoWrap with width limit 6. -/
def cfgNW6 : TextLayoutConfig := { cfgNW with max_width := some 6 }

/-- CharWrap, no limits. -/
def cfgCW : TextLayoutConfig := { TextLayoutConfig.default with wrap_style := .CharWrap }

/-- CharWrap with width limit 6. -/
def cfgCW6 : TextLayoutConfig := { cfgCW with max_width := some 6 }

/-- Left-aligned WordWrap with width limit 20. -/
def cfgC8 : TextLayoutConfig := { TextLayoutConfig.default with max_width := some 20 }

/-- The layout of dA under the default configuration and storageA. -/
def tlA : TextLayout Unit :=
  { config := TextLayoutConfig.default
    total_height := 12
    total_width := 6
    lines := [⟨12, 6, 0, 12, [⟨⟨0, 1, 1024⟩, ⟨6, 0, 0, 0, 6⟩, 0, 2, ()⟩]⟩] }

/-- The single line of tlA. -/
def lineA : TextLayoutLine Unit :=
  ⟨12, 6, 0, 12, [⟨⟨0, 1, 1024⟩, ⟨6, 0, 0, 0, 6⟩, 0, 2, ()⟩]⟩

/-- The layout of dC8 under the Left-aligned cfgC8 and storageA. -/
def tlC8 : TextLayout Unit :=
  { config := { cfgC8 with horizontal_align := .Left }
    total_height := 24
    total_width := 12
    lines :=
      [⟨12, 12, 0, 12,
        [⟨⟨0, 1, 1024⟩, ⟨6, 0, 0, 0, 6⟩, 0, 2, ()⟩,
         ⟨⟨0, 1, 1024⟩, ⟨6, 0, 0, 0, 6⟩, 6, 2, ()⟩]⟩,
       ⟨12, 6, 12, 24, [⟨⟨0, 1, 1024⟩, ⟨6, 0, 0, 0, 6⟩, 0, 14, ()⟩]⟩] }

/-- A font whose kerning table has an entry for the pair (1, 2) at size
32, and nothing else; glyph 1 is 6 wide with advance 6, glyph 2 is 7 wide
with advance 7. -/
def fontK : Font :=
  { lookup_glyph_index := fun _ => 1
    metrics_indexed := fun idx _ =>
      if idx = 1 then ⟨6, 0, 0, 0, 6⟩ else ⟨7, 0, 0, 0, 7⟩
    horizontal_kern_indexed := fun l r s =>
      if l = 1 ∧ r = 2 ∧ s = 32 then some 5 else none
    horizontal_line_metrics := fun _ => some lmA }

/-- Fragment holding glyph 1 of fontK at size 16. -/
def fragK : LayoutFragment Unit := LayoutFragment.new 1 fontK 0 16 lmA ()

/-- A font whose glyph 1 overhangs its advance (bitmap 10 wide, advance
1) and whose glyph 2 is 2 wide with advance 2; no kerning. -/
def fontO : Font :=
  { lookup_glyph_index := fun _ => 1
    metrics_indexed := fun idx _ =>
      if idx = 1 then ⟨10, 0, 0, 0, 1⟩ else ⟨2, 0, 0, 0, 2⟩
    horizontal_kern_indexed := fun _ _ _ => none
    horizontal_line_metrics := fun _ => some lmA }

/-- Storage holding fontO under handle 0. -/
def storageO : FontStorage := ⟨fun fid => if fid = 0 then some fontO else none⟩

/-- Line fragment holding the overhanging glyph 1 of fontO. -/
def selfO : LayoutFragment Unit := LayoutFragment.new 1 fontO 0 16 lmA ()

/-- Word fragment holding glyph 2 of fontO. -/
def otherO : LayoutFragment Unit := LayoutFragment.new 2 fontO 0 16 lmA ()

/-- Fragment holding the single a-glyph of fontA at size 16. -/
def fragA : LayoutFragment Unit := LayoutFragment.new 1 fontA 0 16 lmA ()

/-- Stage-1 state with fragA as the current line and no pending word. -/
def ctxTab : LayoutContext Unit := ⟨[], some fragA, none⟩

/-
  Helper lemmas.
-/

/-- A monadic fold over Option returns none as soon as one list element
maps every state to none. -/
lemma foldlM_eq_none {α β : Type} (g : β → α → Option β) (t : α) :
    ∀ (l : List α), t ∈ l → (∀ b, g b t = none) → ∀ b0, l.foldlM g b0 = none := by
  intro l
  induction l with
  | nil => intro h; cases h
  | cons a l ih =>
    intro ht hnone b0
    rcases List.mem_cons.mp ht with rfl | ht'
    · simp [List.foldlM_cons, hnone b0]
    · cases hga : g b0 a with
      | none => simp [List.foldlM_cons, hga]
      | some b1 => simp [List.foldlM_cons, hga]; exact ih ht' hnone b1

/-
  C1.  The claim says a run whose font is known but lacks horizontal line
  metrics is skipped and layout still returns a TextLayout.  In
  src/text/layout.rs the run instead reaches
  unimplemented!("vertical text layout is not supported yet"), which
  aborts the whole layout call (embedded as the none result); only a run
  whose font is unknown to storage is skipped.
-/

/-- C1 counterexample: a single run over a known font without horizontal
line metrics makes layout abort (none) instead of returning a TextLayout;
storageV does know the font and the font has no line metrics at size 16. -/
theorem C1_counterexample :
    storageV.font 0 = some fontV
      ∧ fontV.horizontal_line_metrics 16 = none
      ∧ dA.layout TextLayoutConfig.default storageV = none :=
  ⟨rfl, rfl, rfl⟩

/-- C1 amended: whenever some run's font is known to storage but lacks
horizontal line metrics at the run's size, layout panics — embedded as
returning none — rather than skipping the run and returning a layout. -/
theorem C1_amended {T : Type} (d : TextData T) (cfg : TextLayoutConfig)
    (st : FontStorage) (t : TextElement T) (f : Font)
    (ht : t ∈ d.texts) (hf : st.font t.font_id = some f)
    (hm : f.horizontal_line_metrics t.font_size = none) :
    d.layout cfg st = none := by
  have hnone : ∀ ctx : LayoutContext T, processRun cfg st ctx t = none := by
    intro ctx
    simp [processRun, hf, hm]
  have : d.texts.foldlM (fun ctx text => processRun cfg st ctx text)
      LayoutContext.empty = none :=
    foldlM_eq_none _ t d.texts ht hnone _
  simp [TextData.layout, layoutFragments, this]

/-- C1 witness: the amended theorem applied to the concrete vertical-only
storage. -/
theorem C1_witness : dA.layout TextLayoutConfig.default storageV = none :=
  C1_amended dA TextLayoutConfig.default storageV ⟨0, 16, ['a'], ()⟩ fontV
    (by simp [dA]) rfl rfl

/-
  C5.  The claim says kerning is applied iff the previous glyph has the
  same font handle AND the same quantised size.  In
  LayoutFragment::push_char and try_push_char_in_length only the font
  handle is compared (the comment in the source reads "Ignore kerning if
  font id is different"), and the kerning pair is looked up at the
  incoming glyph's size; only try_concat_in_length also compares the
  stored quantised sizes.
-/

set_option maxRecDepth 8000 in
/-- C5 counterexample: pushing a glyph of the same font at a different
size (32 after 16, distinct quantised sizes 2048 and 1024) still applies
the kerning value 5: the cursor advances by kern + advance = 5 + 7 on top
of 6 instead of by the bare advance. -/
theorem C5_counterexample :
    (fragK.push_char 2 fontK 0 32 lmA ()).next_origin_x = 18
      ∧ fragK.next_origin_x + (fontK.metrics_indexed 2 32).advance_width = 13
      ∧ (18 : ℚ) ≠ 13
      ∧ (fragK.buffer.getLast?.map fun g => g.glyph_id.size_q) = some 1024
      ∧ (GlyphId.new 0 2 32).size_q = 2048 := by
  with_unfolding_all decide

/-- C5 amended: in push_char the kerning pair is applied iff the previous
glyph has the same font handle, regardless of its size, and is looked up
at the incoming glyph's size; in try_concat_in_length the kerning shift is
applied iff the boundary glyphs agree on both font handle and stored
quantised size, and on success the line cursor becomes
cursor + kern + word cursor. -/
theorem C5_amended :
    (∀ {T : Type} (frag : LayoutFragment T) (idx : Nat) (font : Font)
        (fid : FontId) (size : ℚ) (lm : LineMetrics) (ud : T),
      frag.buffer.getLast? = none →
        (frag.push_char idx font fid size lm ud).next_origin_x
          = frag.next_origin_x + (font.metrics_indexed idx size).advance_width)
    ∧ (∀ {T : Type} (frag : LayoutFragment T) (idx : Nat) (font : Font)
        (fid : FontId) (size : ℚ) (lm : LineMetrics) (ud : T)
        (left : GlyphPosition T),
      frag.buffer.getLast? = some left → left.glyph_id.font_id ≠ fid →
        (frag.push_char idx font fid size lm ud).next_origin_x
          = frag.next_origin_x + (font.metrics_indexed idx size).advance_width)
    ∧ (∀ {T : Type} (frag : LayoutFragment T) (idx : Nat) (font : Font)
        (fid : FontId) (size : ℚ) (lm : LineMetrics) (ud : T)
        (left : GlyphPosition T),
      frag.buffer.getLast? = some left → left.glyph_id.font_id = fid →
        (frag.push_char idx font fid size lm ud).next_origin_x
          = frag.next_origin_x
            + (font.horizontal_kern_indexed left.glyph_id.glyph_index idx size).getD 0
            + (font.metrics_indexed idx size).advance_width)
    ∧ (∀ {T : Type} (self other : LayoutFragment T) (st : FontStorage)
        (l r : GlyphPosition T),
      self.buffer.getLast? = some l → other.buffer.head? = some r →
        (l.glyph_id.font_id ≠ r.glyph_id.font_id
            ∨ l.glyph_id.font_size ≠ r.glyph_id.font_size) →
        LayoutFragment.concatKern self other st = 0)
    ∧ (∀ {T : Type} (self other : LayoutFragment T) (st : FontStorage)
        (l r : GlyphPosition T),
      self.buffer.getLast? = some l → other.buffer.head? = some r →
        l.glyph_id.font_id = r.glyph_id.font_id →
        l.glyph_id.font_size = r.glyph_id.font_size →
        LayoutFragment.concatKern self other st
          = ((st.font l.glyph_id.font_id).bind fun font =>
              font.horizontal_kern_indexed l.glyph_id.glyph_index
                r.glyph_id.glyph_index l.glyph_id.font_size).getD 0)
    ∧ (∀ {T : Type} (self other : LayoutFragment T) (st : FontStorage)
        (m : Option ℚ),
      (self.try_concat_in_length other st m).1 = true →
        (self.try_concat_in_length other st m).2.1.next_origin_x
          = self.next_origin_x + LayoutFragment.concatKern self other st
            + other.next_origin_x) := by
  refine ⟨?_, ?_, ?_, ?_, ?_, ?_⟩
  · intro T frag idx font fid size lm ud hlast
    simp [LayoutFragment.push_char, LayoutFragment.pushKern, hlast]
  · intro T frag idx font fid size lm ud left hlast hne
    simp [LayoutFragment.push_char, LayoutFragment.pushKern, hlast, hne]
  · intro T frag idx font fid size lm ud left hlast heq
    simp [LayoutFragment.push_char, LayoutFragment.pushKern, hlast, heq, add_assoc]
  · intro T self other st l r hl hr hne
    have hnc : ¬ (l.glyph_id.font_id = r.glyph_id.font_id
        ∧ l.glyph_id.font_size = r.glyph_id.font_size) := by
      intro hc
      rcases hne with h | h
      · exact h hc.1
      · exact h hc.2
    simp only [LayoutFragment.concatKern, hl, hr, if_neg hnc]
  · intro T self other st l r hl hr h1 h2
    simp only [LayoutFragment.concatKern, hl, hr, if_pos (And.intro h1 h2)]
  · intro T self other st m hsucc
    simp only [LayoutFragment.try_concat_in_length] at hsucc ⊢
    split at hsucc
    · simp at hsucc
    · next h => rw [if_neg h]

set_option maxRecDepth 8000 in
/-- C5 witness: the same-font different-size conjunct of the amended
theorem applied to fragK (previous glyph of fontK at size 16, incoming
glyph 2 at size 32). -/
theorem C5_witness :
    (fragK.push_char 2 fontK 0 32 lmA ()).next_origin_x
      = fragK.next_origin_x
        + (fontK.horizontal_kern_indexed 1 2 32).getD 0
        + (fontK.metrics_indexed 2 32).advance_width :=
  C5_amended.2.2.1 fragK 2 fontK 0 32 lmA ()
    ⟨⟨0, 1, 1024⟩, ⟨6, 0, 0, 0, 6⟩, 0, 0, ()⟩
    (by with_unfolding_all decide) (by with_unfolding_all decide)

/-
  C6.  The claim says try_concat_in_length succeeds exactly when the
  line's instance_length after appending the word is at most max_width.
  The source instead checks the shifted word extent
  next_origin_x + kern + word.instance_length; the resulting
  instance_length is the maximum of that and the line's previous
  instance_length, which may already exceed the limit (an overhanging
  glyph), so a call can succeed while the resulting instance_length
  exceeds max_width.  The atomicity part of the claim holds.
-/

set_option maxRecDepth 8000 in
/-- C6 counterexample: concatenating a 2-wide word onto a line whose only
glyph overhangs its advance (extent 10, cursor 1) under limit 5 succeeds
(shifted word extent 1 + 0 + 2 = 3 ≤ 5) although the resulting
instance_length 10 exceeds the limit, refuting the stated success
condition. -/
theorem C6_counterexample :
    (selfO.try_concat_in_length otherO storageO (some 5)).1 = true
      ∧ (selfO.try_concat_in_length otherO storageO (some 5)).2.1.instance_length = 10
      ∧ ¬ ((10 : ℚ) ≤ 5) := by
  with_unfolding_all decide

/-- C6 amended: try_concat_in_length succeeds exactly when the line
cursor plus same-font-and-size kerning plus the word's instance_length is
at most max_width (the resulting instance_length is the maximum of this
and the line's previous extent); on failure both fragments are returned
unchanged. -/
theorem C6_amended {T : Type} (self other : LayoutFragment T)
    (st : FontStorage) (m : ℚ) :
    ((self.try_concat_in_length other st (some m)).1 = true
        ↔ self.next_origin_x + LayoutFragment.concatKern self other st
            + other.instance_length ≤ m)
      ∧ ((self.try_concat_in_length other st (some m)).1 = false →
          (self.try_concat_in_length other st (some m)).2.1 = self
            ∧ (self.try_concat_in_length other st (some m)).2.2 = other)
      ∧ ((self.try_concat_in_length other st (some m)).1 = true →
          (self.try_concat_in_length other st (some m)).2.1.instance_length
            = max self.instance_length
                (self.next_origin_x + LayoutFragment.concatKern self other st
                  + other.instance_length)) := by
  refine ⟨?_, ?_, ?_⟩
  · constructor
    · intro hsucc
      simp only [LayoutFragment.try_concat_in_length] at hsucc
      split at hsucc
      · simp at hsucc
      · next h =>
        simp only [exceedsLimit, decide_eq_true_eq, not_lt] at h
        exact h
    · intro hle
      simp only [LayoutFragment.try_concat_in_length]
      rw [if_neg (by simp only [exceedsLimit, decide_eq_true_eq, not_lt]; exact hle)]
  · intro hfail
    simp only [LayoutFragment.try_concat_in_length] at hfail ⊢
    split at hfail
    · next h => rw [if_pos h]; exact ⟨rfl, rfl⟩
    · simp at hfail
  · intro hsucc
    simp only [LayoutFragment.try_concat_in_length] at hsucc ⊢
    split at hsucc
    · simp at hsucc
    · next h => rw [if_neg h]

set_option maxRecDepth 8000 in
/-- C6 witness: the amended theorem at a failing concrete call — limit 2
is below the shifted word extent 3, the call fails and both fragments come
back unchanged. -/
theorem C6_witness :
    (selfO.try_concat_in_length otherO storageO (some 2)).2.1 = selfO
      ∧ (selfO.try_concat_in_length otherO storageO (some 2)).2.2 = otherO :=
  (C6_amended selfO otherO storageO 2).2.1 (by with_unfolding_all decide)

/-
  C2.  The claim says that under WordWrap with a finite max_width larger
  than the widest single word, no line_width exceeds max_width, including
  lines with spaces or tabs.  The width-checked operations
  (try_push_char_in_length, try_concat_in_length) do keep the new extent
  within the limit, but LayoutContext::handle_tab adds the tab advance to
  the line's instance_length with no width check, so a line containing a
  tab can end up wider than max_width.
-/

set_option maxRecDepth 8000 in
/-- C2 counterexample: laying out "a tab a" under WordWrap with
max_width 10 produces line widths [6, 14] — the second line (6-wide glyph
plus the unchecked 8-wide tab) exceeds the limit 10 — although the widest
single word ("a", laid out alone, total width 6) is below the limit. -/
theorem C2_counterexample :
    ((dTab.layout cfgWW10 storageA).map fun tl => tl.lines.map fun l => l.line_width)
        = some [6, 14]
      ∧ cfgWW10.max_width = some 10
      ∧ ¬ ((14 : ℚ) ≤ 10)
      ∧ ((dA.layout TextLayoutConfig.default storageA).map fun tl => tl.total_width)
        = some 6
      ∧ (6 : ℚ) < 10 := by
  with_unfolding_all decide

/-- C2 amended: under a finite limit the width-checked operations respect
it — a successful try_push_char_in_length or try_concat_in_length never
raises the instance_length above the maximum of its previous value and
max_width — but handle_tab adds the tab advance
(space advance times tab_size_in_spaces) to the current line's
instance_length unconditionally, with no width check, so lines containing
tabs can exceed max_width even when max_width exceeds the widest single
word. -/
theorem C2_amended :
    (∀ {T : Type} (frag : LayoutFragment T) (idx : Nat) (font : Font)
        (fid : FontId) (size : ℚ) (lm : LineMetrics) (ud : T) (m : ℚ),
      (frag.try_push_char_in_length idx font fid size lm ud (some m)).1 = true →
        (frag.try_push_char_in_length idx font fid size lm ud (some m)).2.instance_length
          ≤ max frag.instance_length m)
    ∧ (∀ {T : Type} (self other : LayoutFragment T) (st : FontStorage) (m : ℚ),
      (self.try_concat_in_length other st (some m)).1 = true →
        (self.try_concat_in_length other st (some m)).2.1.instance_length
          ≤ max self.instance_length m)
    ∧ (∀ {T : Type} (cfg : TextLayoutConfig) (font : Font) (size : ℚ)
        (lm : LineMetrics) (st : FontStorage) (ctx : LayoutContext T)
        (lf : LayoutFragment T),
      ctx.word_fragment = none → ctx.line_fragment = some lf →
        ((ctx.handle_tab cfg font size lm st).line_fragment.map
            fun l2 => l2.instance_length)
          = some (lf.instance_length
              + (font.metrics ' ' size).advance_width * (cfg.tab_size_in_spaces : ℚ))) := by
  refine ⟨?_, ?_, ?_⟩
  · intro T frag idx font fid size lm ud m hsucc
    simp only [LayoutFragment.try_push_char_in_length] at hsucc ⊢
    split at hsucc
    · simp at hsucc
    · next h =>
      rw [if_neg h]
      simp only [exceedsLimit, decide_eq_true_eq, not_lt] at h
      exact max_le_max le_rfl h
  · intro T self other st m hsucc
    simp only [LayoutFragment.try_concat_in_length] at hsucc ⊢
    split at hsucc
    · simp at hsucc
    · next h =>
      rw [if_neg h]
      simp only [exceedsLimit, decide_eq_true_eq, not_lt] at h
      exact max_le_max le_rfl h
  · intro T cfg font size lm st ctx lf hword hline
    simp only [LayoutContext.handle_tab, hword, hline]
    rfl

set_option maxRecDepth 8000 in
/-- C2 witness: the tab conjunct of the amended theorem at the concrete
state holding the a-glyph line fragment — the tab adds advance 2 times
tab size 4 on top of the fragment's extent with no width check — and the
try_push conjunct at a successful concrete push under limit 20. -/
theorem C2_witness :
    (((ctxTab.handle_tab cfgWW10 fontA 16 lmA storageA).line_fragment.map
          fun l2 => l2.instance_length)
        = some (fragA.instance_length
            + (fontA.metrics ' ' 16).advance_width * (cfgWW10.tab_size_in_spaces : ℚ)))
      ∧ ((fragA.try_push_char_in_length 1 fontA 0 16 lmA () (some 20)).2.instance_length
          ≤ max fragA.instance_length 20) :=
  ⟨C2_amended.2.2 cfgWW10 fontA 16 lmA storageA ctxTab fragA rfl rfl,
   C2_amended.1 fragA 1 fontA 0 16 lmA () 20 (by with_unfolding_all decide)⟩

/-
  C3.  The claim (scenario C of the spec) expects two lines from the
  single run "newline", the first carrying the metrics of the font at the
  run size.  In the source, handle_newline pushes one blank fragment with
  zero metrics, and the final flush commits nothing because both
  fragments are empty, so the layout has exactly one line, an empty one
  with zero metrics (width 0, height 0).
-/

set_option maxRecDepth 8000 in
/-- C3 counterexample: laying out the single run "newline" under the
default configuration yields one line, not two. -/
theorem C3_counterexample :
    ((dNl.layout TextLayoutConfig.default storageA).map fun tl => tl.lines.length)
        = some 1
      ∧ (1 : Nat) ≠ 2 := by
  with_unfolding_all decide

/-- C3 amended: for every configuration and every storage resolving the
run's font with some horizontal line metrics, laying out the single run
"newline" yields exactly one line, which is empty and has zero metrics:
width 0, scaled height 0 and no glyphs. -/
theorem C3_amended {T : Type} (cfg : TextLayoutConfig) (st : FontStorage)
    (fid : FontId) (f : Font) (size : ℚ) (lm : LineMetrics) (ud : T)
    (hf : st.font fid = some f)
    (hm : f.horizontal_line_metrics size = some lm) :
    ((TextData.layout ⟨[⟨fid, size, ['\n'], ud⟩]⟩ cfg st).map
        fun tl => tl.lines.map fun l => (l.line_width, l.line_height, l.glyphs.length))
      = some [(0, 0, 0)] := by
  cases hws : cfg.wrap_style <;>
    simp [TextData.layout, layoutFragments, processRun, hf, hm, processChar,
      isHardBreak, LayoutContext.handle_newline, LayoutContext.empty,
      LayoutContext.flush, hws, assemble, processLines, maxLineWidth,
      totalHeight, emitLines, LayoutFragment.new_blank]

/-- C3 witness: the amended theorem at the concrete font and default
configuration. -/
theorem C3_witness :
    ((dNl.layout TextLayoutConfig.default storageA).map
        fun tl => tl.lines.map fun l => (l.line_width, l.line_height, l.glyphs.length))
      = some [(0, 0, 0)] :=
  C3_amended TextLayoutConfig.default storageA 0 fontA 16 lmA () rfl rfl

/-
  C10.  The claim says the totals (and measure) are computed solely from
  the content, independently of max_width and max_height.  The totals are
  indeed the unclamped fold of the committed lines (max of line widths,
  sum of scaled line heights) and ignore max_height, but max_width drives
  the wrapping in stage 1 and therefore changes the committed lines and
  with them the totals.
-/

/-- The widths of the emitted lines are the widths of the accumulator
followed by the instance lengths of the processed fragments. -/
lemma emitLines_widths (cfg : TextLayoutConfig) (cw : ℚ) :
    ∀ (ps : List (ProcessedLine T)) (acc : List (TextLayoutLine T)) (cy : ℚ),
      (emitLines cfg cw ps acc cy).map (fun l => l.line_width)
        = acc.map (fun l => l.line_width) ++ ps.map (fun p => p.fragment.instance_length) := by
  intro ps
  induction ps with
  | nil => intro acc cy; simp [emitLines]
  | cons p rest ih =>
    intro acc cy
    simp only [emitLines, ih, List.map_append, List.map_cons, List.map_nil,
      List.append_assoc, List.cons_append, List.nil_append]

/-- The heights of the emitted lines are the heights of the accumulator
followed by the scaled heights of the processed fragments. -/
lemma emitLines_heights (cfg : TextLayoutConfig) (cw : ℚ) :
    ∀ (ps : List (ProcessedLine T)) (acc : List (TextLayoutLine T)) (cy : ℚ),
      (emitLines cfg cw ps acc cy).map (fun l => l.line_height)
        = acc.map (fun l => l.line_height) ++ ps.map (fun p => p.line_height) := by
  intro ps
  induction ps with
  | nil => intro acc cy; simp [emitLines]
  | cons p rest ih =>
    intro acc cy
    simp only [emitLines, ih, List.map_append, List.map_cons, List.map_nil,
      List.append_assoc, List.cons_append, List.nil_append]

set_option maxRecDepth 8000 in
/-- C10 counterexample: the same content under CharWrap yields totals
(12, 12) with no width limit and (6, 24) with max_width 6 — the totals do
depend on max_width (through wrapping), refuting the stated
independence. -/
theorem C10_counterexample :
    ((dXXnl.layout cfgCW storageA).map fun tl => (tl.total_width, tl.total_height))
        = some (12, 12)
      ∧ ((dXXnl.layout cfgCW6 storageA).map fun tl => (tl.total_width, tl.total_height))
        = some (6, 24)
      ∧ cfgCW6 = { cfgCW with max_width := some 6 }
      ∧ ((12 : ℚ), (12 : ℚ)) ≠ ((6 : ℚ), (24 : ℚ)) := by
  with_unfolding_all decide

/-- C10 amended: the totals are computed from the committed lines with no
clamping to the limits — total_width is the fold of max over the line
widths and total_height the fold of addition over the scaled line
heights — and they are independent of max_height; measure returns exactly
these totals (and so can exceed max_width); but max_width does influence
the totals through wrapping. -/
theorem C10_amended :
    (∀ {T : Type} (d : TextData T) (cfg : TextLayoutConfig) (st : FontStorage)
        (mh : Option ℚ),
      ((d.layout { cfg with max_height := mh } st).map
          fun tl => (tl.total_width, tl.total_height))
        = ((d.layout cfg st).map fun tl => (tl.total_width, tl.total_height)))
    ∧ (∀ {T : Type} (d : TextData T) (cfg : TextLayoutConfig) (st : FontStorage),
      d.measure cfg st
        = ((d.layout cfg st).map fun tl => (tl.total_width, tl.total_height)))
    ∧ (∀ {T : Type} (d : TextData T) (cfg : TextLayoutConfig) (st : FontStorage)
        (tl : TextLayout T),
      d.layout cfg st = some tl →
        tl.total_width = (tl.lines.map fun l => l.line_width).foldl max 0
          ∧ tl.total_height = (tl.lines.map fun l => l.line_height).foldl (· + ·) 0) := by
  refine ⟨?_, ?_, ?_⟩
  · intro T d cfg st mh
    have h1 : layoutFragments d { cfg with max_height := mh } st
        = layoutFragments d cfg st := rfl
    cases h : layoutFragments d cfg st with
    | none => simp [TextData.layout, h1, h]
    | some ls =>
      simp only [TextData.layout, h1, h, Option.map_map]
      rfl
  · intro T d cfg st
    rfl
  · intro T d cfg st tl h
    rcases Option.map_eq_some'.mp h with ⟨ls, hls, rfl⟩
    constructor
    · show maxLineWidth (processLines cfg ls) = _
      rw [show (assemble cfg ls).lines
          = emitLines cfg ((cfg.max_width).getD (maxLineWidth (processLines cfg ls)))
              (processLines cfg ls) []
              (match cfg.vertical_align with
                | .Top => 0
                | .Middle => ((cfg.max_height).getD (totalHeight (processLines cfg ls))
                    - totalHeight (processLines cfg ls)) / 2
                | .Bottom => (cfg.max_height).getD (totalHeight (processLines cfg ls))
                    - totalHeight (processLines cfg ls)) from rfl]
      rw [emitLines_widths]
      simp [maxLineWidth, List.foldl_map]
    · show totalHeight (processLines cfg ls) = _
      rw [show (assemble cfg ls).lines
          = emitLines cfg ((cfg.max_width).getD (maxLineWidth (processLines cfg ls)))
              (processLines cfg ls) []
              (match cfg.vertical_align with
                | .Top => 0
                | .Middle => ((cfg.max_height).getD (totalHeight (processLines cfg ls))
                    - totalHeight (processLines cfg ls)) / 2
                | .Bottom => (cfg.max_height).getD (totalHeight (processLines cfg ls))
                    - totalHeight (processLines cfg ls)) from rfl]
      rw [emitLines_heights]
      simp [totalHeight, List.foldl_map]

set_option maxRecDepth 8000 in
/-- C10 witness: the totals conjunct of the amended theorem at the
concrete one-word layout tlA, together with a concrete measurement
exceeding max_width (NoWrap content 12 wide under limit 6). -/
theorem C10_witness :
    (tlA.total_width = (tlA.lines.map fun l => l.line_width).foldl max 0
        ∧ tlA.total_height = (tlA.lines.map fun l => l.line_height).foldl (· + ·) 0)
      ∧ dXXnl.measure cfgNW6 storageA = some (12, 12)
      ∧ cfgNW6.max_width = some 6
      ∧ ¬ ((12 : ℚ) ≤ 6) :=
  ⟨C10_amended.2.2 dA TextLayoutConfig.default storageA tlA
      (by with_unfolding_all decide),
   by with_unfolding_all decide, rfl, by norm_num⟩

/-
  C4.  The claim says that under NoWrap the number of lines is
  1 + (number of hard breaks), including the empty input and inputs that
  end with a hard break.  In the source every hard break commits exactly
  one line, but the final flush matches the word slot where it means the
  line slot, so under NoWrap the line under construction at the end of
  the input is dropped and the number of lines is exactly the number of
  hard breaks (0 for the empty input).
-/

/-- handle_newline with no pending word commits exactly one line and
leaves the word slot empty. -/
lemma handle_newline_word_none (cfg : TextLayoutConfig) (st : FontStorage)
    (ctx : LayoutContext T) (hw : ctx.word_fragment = none) :
    (ctx.handle_newline cfg st).word_fragment = none
      ∧ (ctx.handle_newline cfg st).lines.length = ctx.lines.length + 1 := by
  cases hlf : ctx.line_fragment <;>
    simp [LayoutContext.handle_newline, hw, hlf]

/-- Under NoWrap a space only grows the line fragment. -/
lemma handle_space_nowrap (cfg : TextLayoutConfig) (glyph_idx : Nat) (font : Font)
    (fid : FontId) (size : ℚ) (lm : LineMetrics) (ud : T) (st : FontStorage)
    (ctx : LayoutContext T) (hws : cfg.wrap_style = .NoWrap) :
    (ctx.handle_space cfg glyph_idx font fid size lm ud st).word_fragment = none
      ∧ (ctx.handle_space cfg glyph_idx font fid size lm ud st).lines.length
        = ctx.lines.length := by
  cases hlf : ctx.line_fragment <;>
    simp [LayoutContext.handle_space, hws, hlf]

/-- handle_tab with no pending word only grows the line fragment. -/
lemma handle_tab_word_none (cfg : TextLayoutConfig) (font : Font) (size : ℚ)
    (lm : LineMetrics) (st : FontStorage) (ctx : LayoutContext T)
    (hw : ctx.word_fragment = none) :
    (ctx.handle_tab cfg font size lm st).word_fragment = none
      ∧ (ctx.handle_tab cfg font size lm st).lines.length = ctx.lines.length := by
  cases hlf : ctx.line_fragment <;>
    simp [LayoutContext.handle_tab, hw, hlf]

/-- Under NoWrap an ordinary character only grows the line fragment. -/
lemma handle_char_nowrap (cfg : TextLayoutConfig) (glyph_idx : Nat) (font : Font)
    (fid : FontId) (size : ℚ) (lm : LineMetrics) (ud : T)
    (ctx : LayoutContext T) (hws : cfg.wrap_style = .NoWrap) :
    (ctx.handle_char cfg glyph_idx font fid size lm ud).word_fragment = none
      ∧ (ctx.handle_char cfg glyph_idx font fid size lm ud).lines.length
        = ctx.lines.length := by
  cases hlf : ctx.line_fragment <;>
    simp [LayoutContext.handle_char, hws, hlf]

/-- Under NoWrap one processed character adds one committed line when it
is a hard break and none otherwise, keeping the word slot empty. -/
lemma processChar_nowrap (cfg : TextLayoutConfig) (font : Font) (fid : FontId)
    (size : ℚ) (lm : LineMetrics) (ud : T) (st : FontStorage)
    (hws : cfg.wrap_style = .NoWrap) (ctx : LayoutContext T) (ch : Char)
    (hw : ctx.word_fragment = none) :
    (processChar cfg font fid size lm ud st ctx ch).word_fragment = none
      ∧ (processChar cfg font fid size lm ud st ctx ch).lines.length
        = ctx.lines.length + (if isHardBreak ch then 1 else 0) := by
  by_cases hb : isHardBreak ch
  · have h := handle_newline_word_none cfg st ctx hw
    simp [processChar, hb, h.1, h.2]
  · by_cases hsp : ch = ' '
    · subst hsp
      have hfalse : isHardBreak ' ' = false := by decide
      have h := handle_space_nowrap cfg (font.lookup_glyph_index ' ') font fid size
        lm ud st ctx hws
      simp [processChar, hfalse, h.1, h.2]
    · by_cases htab : ch = '\t'
      · subst htab
        have hfalse : isHardBreak '\t' = false := by decide
        have h := handle_tab_word_none cfg font size lm st ctx hw
        simp [processChar, hfalse, hsp, h.1, h.2]
      · have h := handle_char_nowrap cfg (font.lookup_glyph_index ch) font fid size
          lm ud ctx hws
        simp [processChar, hb, hsp, htab, h.1, h.2]

/-- Under NoWrap a run of characters adds exactly one committed line per
hard break. -/
lemma foldChars_nowrap (cfg : TextLayoutConfig) (font : Font) (fid : FontId)
    (size : ℚ) (lm : LineMetrics) (ud : T) (st : FontStorage)
    (hws : cfg.wrap_style = .NoWrap) :
    ∀ (content : List Char) (ctx : LayoutContext T), ctx.word_fragment = none →
      ((content.foldl (fun c ch => processChar cfg font fid size lm ud st c ch)
          ctx).word_fragment = none
        ∧ (content.foldl (fun c ch => processChar cfg font fid size lm ud st c ch)
            ctx).lines.length
          = ctx.lines.length + content.countP (fun c => isHardBreak c)) := by
  intro content
  induction content with
  | nil => intro ctx hw; simp [hw]
  | cons ch rest ih =>
    intro ctx hw
    have h1 := processChar_nowrap cfg font fid size lm ud st hws ctx ch hw
    have h2 := ih _ h1.1
    refine ⟨by rw [List.foldl_cons]; exact h2.1, ?_⟩
    rw [List.foldl_cons, h2.2, h1.2, List.countP_cons]
    omega

/-- Under NoWrap one resolvable run adds exactly one line per hard break. -/
lemma processRun_nowrap (cfg : TextLayoutConfig) (st : FontStorage)
    (hws : cfg.wrap_style = .NoWrap) (t : TextElement T) (f : Font)
    (lm : LineMetrics) (hf : st.font t.font_id = some f)
    (hm : f.horizontal_line_metrics t.font_size = some lm)
    (ctx : LayoutContext T) (hw : ctx.word_fragment = none) :
    ∃ ctx', processRun cfg st ctx t = some ctx' ∧ ctx'.word_fragment = none
      ∧ ctx'.lines.length
        = ctx.lines.length + t.content.countP (fun c => isHardBreak c) := by
  have h := foldChars_nowrap cfg f t.font_id t.font_size lm t.user_data st hws
    t.content ctx hw
  exact ⟨_, by simp [processRun, hf, hm], h.1, h.2⟩

/-- Under NoWrap the whole stage-1 fold succeeds on resolvable runs and
commits exactly one line per hard break of the input. -/
lemma foldRuns_nowrap (cfg : TextLayoutConfig) (st : FontStorage)
    (hws : cfg.wrap_style = .NoWrap) :
    ∀ (texts : List (TextElement T)) (ctx : LayoutContext T),
      (∀ t ∈ texts, ∃ f, st.font t.font_id = some f
        ∧ (f.horizontal_line_metrics t.font_size).isSome) →
      ctx.word_fragment = none →
      ∃ ctx', texts.foldlM (fun c t => processRun cfg st c t) ctx = some ctx'
        ∧ ctx'.word_fragment = none
        ∧ ctx'.lines.length = ctx.lines.length
            + (texts.map fun t => t.content.countP fun c => isHardBreak c).sum := by
  intro texts
  induction texts with
  | nil => intro ctx _ hw; exact ⟨ctx, by simp, hw, by simp⟩
  | cons t rest ih =>
    intro ctx hres hw
    obtain ⟨f, hf, hmS⟩ := hres t (List.mem_cons_self t rest)
    obtain ⟨lm, hm⟩ := Option.isSome_iff_exists.mp hmS
    obtain ⟨ctx1, hrun, hw1, hlen1⟩ :=
      processRun_nowrap cfg st hws t f lm hf hm ctx hw
    obtain ⟨ctx', hfold, hw', hlen'⟩ :=
      ih ctx1 (fun t' ht' => hres t' (List.mem_cons_of_mem _ ht')) hw1
    refine ⟨ctx', ?_, hw', ?_⟩
    · rw [List.foldlM_cons, hrun]
      simpa using hfold
    · rw [hlen', hlen1, List.map_cons, List.sum_cons]
      omega

/-- Under NoWrap the final flush commits nothing when no word fragment is
pending (and under NoWrap none ever is): the line under construction is
dropped. -/
lemma flush_nowrap (cfg : TextLayoutConfig) (st : FontStorage)
    (ctx : LayoutContext T) (hws : cfg.wrap_style = .NoWrap)
    (hw : ctx.word_fragment = none) : (ctx.flush cfg st).lines = ctx.lines := by
  cases hlf : ctx.line_fragment <;>
    simp [LayoutContext.flush, hws, hw, hlf]

/-- The assembly loop emits one final line per processed line. -/
lemma emitLines_length (cfg : TextLayoutConfig) (cw : ℚ) :
    ∀ (ps : List (ProcessedLine T)) (acc : List (TextLayoutLine T)) (cy : ℚ),
      (emitLines cfg cw ps acc cy).length = acc.length + ps.length := by
  intro ps
  induction ps with
  | nil => intro acc cy; simp [emitLines]
  | cons p rest ih =>
    intro acc cy
    rw [emitLines, ih]
    simp
    omega

/-- Stage 2 emits one final line per committed fragment. -/
lemma assemble_lines_length (cfg : TextLayoutConfig)
    (ls : List (LayoutFragment T)) :
    (assemble cfg ls).lines.length = ls.length := by
  simp only [assemble]
  rw [emitLines_length]
  simp [processLines]

set_option maxRecDepth 8000 in
/-- C4 counterexample: the single run "a" under NoWrap yields a layout
with 0 lines (the trailing line is dropped by flush), not
1 + 0 hard breaks = 1 as the claim states. -/
theorem C4_counterexample :
    ((dA.layout cfgNW storageA).map fun tl => tl.lines.length) = some 0
      ∧ countHardBreaks dA = 0
      ∧ (0 : Nat) ≠ 1 + countHardBreaks dA := by
  with_unfolding_all decide

/-- C4 amended: under NoWrap, when every run's font is known to storage
with horizontal line metrics at the run's size, the number of lines in
the layout equals exactly the number of hard-break characters of the
input — the line still under construction at the end of the input is
dropped by the final flush, and the empty input yields 0 lines. -/
theorem C4_amended {T : Type} (d : TextData T) (cfg : TextLayoutConfig)
    (st : FontStorage) (hws : cfg.wrap_style = .NoWrap)
    (hres : ∀ t ∈ d.texts, ∃ f, st.font t.font_id = some f
      ∧ (f.horizontal_line_metrics t.font_size).isSome) :
    ((d.layout cfg st).map fun tl => tl.lines.length)
      = some (countHardBreaks d) := by
  obtain ⟨ctx', hfold, hw', hlen'⟩ :=
    foldRuns_nowrap cfg st hws d.texts LayoutContext.empty hres rfl
  have hlay : d.layout cfg st
      = some (assemble cfg (LayoutContext.flush cfg st ctx').lines) := by
    simp [TextData.layout, layoutFragments, hfold]
  rw [hlay]
  simp only [Option.map_some']
  rw [assemble_lines_length, flush_nowrap cfg st ctx' hws hw', hlen']
  simp [countHardBreaks, LayoutContext.empty]

/-- C4 witness: the amended theorem at the concrete run "a newline" —
one hard break, one line. -/
theorem C4_witness :
    ((dAnl.layout cfgNW storageA).map fun tl => tl.lines.length)
      = some (countHardBreaks dAnl) :=
  C4_amended dAnl cfgNW storageA rfl (by
    intro t ht
    simp only [dAnl, List.mem_singleton] at ht
    subst ht
    exact ⟨fontA, rfl, rfl⟩)

/-
  C7.  Every emitted line has bottom = top + line_height by construction,
  so bottom minus top always equals line_height; but top < bottom holds
  exactly when line_height is positive, and the blank line emitted for a
  lone hard break has zero metrics and hence zero height, so the claim's
  strict inequality fails on such lines.
-/

/-- Every line emitted by the final assembly loop satisfies
bottom − top = line_height, with top < bottom exactly when the scaled
line height is positive. -/
lemma emitLines_vertical (cfg : TextLayoutConfig) (cw : ℚ) :
    ∀ (ps : List (ProcessedLine T)) (acc : List (TextLayoutLine T)) (cy : ℚ),
      (∀ l ∈ acc, l.bottom - l.top = l.line_height
        ∧ (l.top < l.bottom ↔ 0 < l.line_height)) →
      ∀ l ∈ emitLines cfg cw ps acc cy,
        l.bottom - l.top = l.line_height ∧ (l.top < l.bottom ↔ 0 < l.line_height) := by
  intro ps
  induction ps with
  | nil => intro acc cy hacc; simpa [emitLines] using hacc
  | cons p rest ih =>
    intro acc cy hacc
    refine ih _ _ ?_
    intro l hl
    rcases List.mem_append.mp hl with hmem | hmem
    · exact hacc l hmem
    · rcases List.mem_singleton.mp hmem with rfl
      constructor
      · exact add_sub_cancel_left cy p.line_height
      · exact lt_add_iff_pos_right cy

set_option maxRecDepth 8000 in
/-- C7 counterexample: the blank line produced by a lone newline has
top = bottom = 0, so the claimed strict inequality top < bottom fails. -/
theorem C7_counterexample :
    ((dNl.layout TextLayoutConfig.default storageA).map
        fun tl => tl.lines.map fun l => (l.top, l.bottom))
      = some [(0, 0)] ∧ ¬ ((0 : ℚ) < 0) := by
  with_unfolding_all decide

/-- C7 amended: in every layout produced, every line satisfies
bottom − top = line_height, and top < bottom holds exactly when
line_height is positive — in particular it fails for the empty lines
emitted for blank lines, whose zero metrics give line_height 0. -/
theorem C7_amended {T : Type} (d : TextData T) (cfg : TextLayoutConfig)
    (st : FontStorage) (tl : TextLayout T) (h : d.layout cfg st = some tl) :
    ∀ l ∈ tl.lines,
      l.bottom - l.top = l.line_height ∧ (l.top < l.bottom ↔ 0 < l.line_height) := by
  rcases Option.map_eq_some'.mp h with ⟨ls, hls, rfl⟩
  intro l hl
  exact emitLines_vertical cfg _ _ [] _ (by intro l hl; cases hl) l hl

set_option maxRecDepth 8000 in
/-- C7 witness: the amended theorem at the concrete one-line layout tlA,
whose line has top 0, bottom 12, line_height 12. -/
theorem C7_witness :
    lineA.bottom - lineA.top = lineA.line_height
      ∧ (lineA.top < lineA.bottom ↔ 0 < lineA.line_height) :=
  C7_amended dA TextLayoutConfig.default storageA tlA
    (by with_unfolding_all decide) lineA (by with_unfolding_all decide)

/-
  C8.  Switching horizontal_align from Left to Right: stage 1 never reads
  the alignment, so the committed fragments are identical, and stage 2
  changes only the per-line x offset from 0 to
  container_width − line_width with container_width = max_width when set
  and the total width otherwise; y coordinates and line structure are
  untouched.
-/

/-- Emitting processed lines under Right alignment produces exactly the
Left-aligned lines with every glyph shifted right by
container width − line width. -/
lemma emitLines_align_shift (cfg : TextLayoutConfig) (cw : ℚ) :
    ∀ (ps : List (ProcessedLine T)) (acc accR : List (TextLayoutLine T)) (cy : ℚ),
      accR = acc.map (fun l => shiftRight cw l) →
      emitLines { cfg with horizontal_align := .Right } cw ps accR cy
        = (emitLines { cfg with horizontal_align := .Left } cw ps acc cy).map
            (fun l => shiftRight cw l) := by
  intro ps
  induction ps with
  | nil => intro acc accR cy hacc; simpa [emitLines] using hacc
  | cons p rest ih =>
    intro acc accR cy hacc
    simp only [emitLines]
    refine ih _ _ _ ?_
    rw [hacc, List.map_append]
    congr 1
    simp [shiftRight, List.map_map, Function.comp, add_zero]

set_option maxRecDepth 8000 in
/-- C8: changing horizontal_align from Left to Right keeps the line
structure, widths, heights, vertical extents and glyph y coordinates, and
shifts every glyph x by exactly container_width − line_width per line,
with container_width = max_width when set and total_width otherwise. -/
theorem C8_left_right {T : Type} (d : TextData T) (cfg : TextLayoutConfig)
    (st : FontStorage) (L : TextLayout T)
    (h : d.layout { cfg with horizontal_align := .Left } st = some L) :
    d.layout { cfg with horizontal_align := .Right } st
      = some { L with
          config := { cfg with horizontal_align := .Right }
          lines := L.lines.map
            fun l => shiftRight ((cfg.max_width).getD L.total_width) l } := by
  rcases Option.map_eq_some'.mp h with ⟨ls, hls, hA⟩
  have hR : layoutFragments d { cfg with horizontal_align := .Right } st
      = some ls := by
    have e1 : layoutFragments d { cfg with horizontal_align := .Right } st
        = layoutFragments d cfg st := rfl
    have e2 : layoutFragments d { cfg with horizontal_align := .Left } st
        = layoutFragments d cfg st := rfl
    rw [e1, ← e2, hls]
  subst hA
  have hlay : d.layout { cfg with horizontal_align := .Right } st
      = some (assemble { cfg with horizontal_align := .Right } ls) := by
    simp [TextData.layout, hR]
  rw [hlay]
  congr 1
  exact congrArg
    (fun lns => TextLayout.mk { cfg with horizontal_align := .Right }
      (totalHeight (processLines cfg ls)) (maxLineWidth (processLines cfg ls)) lns)
    (emitLines_align_shift cfg ((cfg.max_width).getD (maxLineWidth (processLines cfg ls)))
      (processLines cfg ls) [] []
      (match cfg.vertical_align with
        | .Top => 0
        | .Middle => ((cfg.max_height).getD (totalHeight (processLines cfg ls))
            - totalHeight (processLines cfg ls)) / 2
        | .Bottom => (cfg.max_height).getD (totalHeight (processLines cfg ls))
            - totalHeight (processLines cfg ls))
      (by simp))

set_option maxRecDepth 8000 in
/-- C8 witness: the theorem at the concrete two-line layout tlC8 — the
right-aligned layout is the left-aligned one with line 1 (width 12)
shifted by 20 − 12 = 8 and line 2 (width 6) shifted by 20 − 6 = 14. -/
theorem C8_witness :
    dC8.layout { cfgC8 with horizontal_align := .Right } storageA
      = some { tlC8 with
          config := { cfgC8 with horizontal_align := .Right }
          lines := tlC8.lines.map
            fun l => shiftRight ((cfgC8.max_width).getD tlC8.total_width) l } :=
  C8_left_right dC8 cfgC8 storageA tlC8 (by with_unfolding_all decide)

/-
  C9.  Render and cache-clear calls on an uninitialised renderer slot:
  src/font_system.rs logs a warning and does nothing in every such entry
  point.
-/

/-- C9: a render or cache clear on a FontSystem whose corresponding
renderer slot is uninitialised leaves the system unchanged, invokes no
callback (empty event list), and logs exactly the warning; nothing else
happens. -/
theorem C9_uninitialised {CpuR GpuR E : Type} (sys : FontSystem CpuR GpuR)
    (render : CpuR → CpuR × List E) (clear_cache : CpuR → CpuR)
    (grender : GpuR → GpuR × List E) (gclear : GpuR → GpuR) :
    (sys.cpu_renderer = none →
        sys.cpu_render render
            = (sys, [], ["Render called before cpu renderer initialized."])
          ∧ sys.cpu_cache_clear clear_cache
            = (sys, ["Cache clear called before cpu renderer initialized."]))
      ∧ (sys.gpu_renderer = none →
          sys.gpu_render grender
              = (sys, [], ["Render called before gpu renderer initialized."])
            ∧ sys.gpu_cache_clear gclear
              = (sys, ["Cache clear called before gpu renderer initialized."])) := by
  constructor
  · intro h
    constructor
    · simp [FontSystem.cpu_render, h]
    · simp [FontSystem.cpu_cache_clear, h]
  · intro h
    constructor
    · simp [FontSystem.gpu_render, h]
    · simp [FontSystem.gpu_cache_clear, h]

/-- C9 witness: the theorem applied to the freshly constructed system
(no renderer initialised) with identity renderer stubs. -/
theorem C9_witness :
    ((FontSystem.new : FontSystem Unit Unit).cpu_render
        (fun r => (r, ([] : List Unit)))
        = (FontSystem.new, [], ["Render called before cpu renderer initialized."]))
      ∧ ((FontSystem.new : FontSystem Unit Unit).gpu_render
          (fun r => (r, ([] : List Unit)))
          = (FontSystem.new, [], ["Render called before gpu renderer initialized."])) :=
  ⟨((C9_uninitialised FontSystem.new (fun r => (r, [])) id (fun r => (r, [])) id).1
      rfl).1,
   ((C9_uninitialised FontSystem.new (fun r => (r, [])) id (fun r => (r, [])) id).2
      rfl).1⟩

end Suzuri
